import Mathlib

/-!
Verification of the tile-generation coordinator of the `ai-canvas` repository.

The definitions below are a shallow embedding of the TypeScript sources:
  * `src/types/index.ts`          — `CanvasImage`, `SerializedCanvasImage`, responses
  * `src/hooks/useCanvasState.ts` — the tile store (`addImage`, `updateImage`,
                                     `deleteImage`, `selectImage`)
  * `src/hooks/useImageGeneration.ts` — `generateImageForTile`, the per-tile
                                     abort-controller map, `getSmartZIndex`,
                                     `normalizeZIndexes`, `handleImageExpand`
  * `src/services/aiService.ts`   — `AIService.generateImage`
  * `src/services/documentService.ts` — serialization / deserialization
  * `src/hooks/useDocumentOperations.ts` — `saveDocument`

JavaScript numbers are modelled as `Rat` (every value occurring in the claims
is in fact an integer), JS `string | undefined` as `Option String`, and partial
update objects (`Partial<CanvasImage>`) as a record of optional fields.
Asynchronous runs are modelled by making each suspension point's outcome an
explicit parameter (network result, preload result, whether the run's abort
signal had been fired before the network call resolved); store writes and
surfaced error messages are collected as explicit effect lists.
-/

namespace AICanvas

/-- `ImageDisplayState` from `src/types/index.ts`:
`'loading' | 'updating' | 'ready' | 'failed'`. -/
inductive DisplayState
  | loading
  | updating
  | ready
  | failed
deriving Repr, DecidableEq

/-- `CanvasImage` from `src/types/index.ts`.  Optional TS fields
(`prompt?`, `selected?`, `displayState?`, `zIndex?`) become `Option`s. -/
structure CanvasImage where
  id : String
  src : String
  x : Rat
  y : Rat
  width : Rat
  height : Rat
  prompt : Option String
  selected : Option Bool
  displayState : Option DisplayState
  zIndex : Option Nat
deriving Repr, DecidableEq

/-- A `Partial<CanvasImage>` as passed to `updateImage`.  A `none` field is
absent from the update object.  `prompt` can be present *and* hold JS
`undefined` (this happens in `handleImageExpand` when the variations array is
shorter than 4), hence `Option (Option String)`.  No caller ever patches `id`. -/
structure ImagePatch where
  src : Option String
  x : Option Rat
  y : Option Rat
  width : Option Rat
  height : Option Rat
  prompt : Option (Option String)
  selected : Option Bool
  displayState : Option DisplayState
  zIndex : Option Nat
deriving Repr, DecidableEq

/-- The empty update object. -/
def ImagePatch.empty : ImagePatch :=
  ⟨none, none, none, none, none, none, none, none, none⟩

/-- JS object spread `{ ...img, ...updates }` for the fields of `CanvasImage`. -/
def applyPatch (img : CanvasImage) (p : ImagePatch) : CanvasImage :=
  { id := img.id
    src := p.src.getD img.src
    x := p.x.getD img.x
    y := p.y.getD img.y
    width := p.width.getD img.width
    height := p.height.getD img.height
    prompt := match p.prompt with | some q => q | none => img.prompt
    selected := match p.selected with | some b => some b | none => img.selected
    displayState := match p.displayState with | some d => some d | none => img.displayState
    zIndex := match p.zIndex with | some z => some z | none => img.zIndex }

/-- `updateImage` from `src/hooks/useCanvasState.ts`:
`prev.map(img => img.id === id ? { ...img, ...updates } : img)`. -/
def updateImage (images : List CanvasImage) (id : String) (p : ImagePatch) :
    List CanvasImage :=
  images.map fun img => if img.id = id then applyPatch img p else img

/-- `addImage` from `src/hooks/useCanvasState.ts`: `prev => [...prev, image]`. -/
def addImage (images : List CanvasImage) (image : CanvasImage) : List CanvasImage :=
  images ++ [image]

/-- The image-list part of `deleteImage` from `src/hooks/useCanvasState.ts`:
`prev.filter(img => img.id !== id)`. -/
def deleteImage (images : List CanvasImage) (id : String) : List CanvasImage :=
  images.filter fun img => ¬(img.id = id)

/-- The image-list part of `selectImage` from `src/hooks/useCanvasState.ts`:
`prev.map(img => ({ ...img, selected: img.id === id }))`; `id` is
`string | null`. -/
def selectImage (images : List CanvasImage) (id : Option String) : List CanvasImage :=
  images.map fun img => { img with selected := some (decide (some img.id = id)) }

/-- Number of tiles with `selected === true`. -/
def selCount (images : List CanvasImage) : Nat :=
  (images.filter fun img => img.selected = some true).length

/-- The selection invariant of the spec: at most one tile is selected. -/
def AtMostOneSelected (images : List CanvasImage) : Prop :=
  selCount images ≤ 1

instance : DecidablePred AtMostOneSelected := fun images =>
  inferInstanceAs (Decidable (selCount images ≤ 1))

/-! ### The generation service (`src/services/aiService.ts`) -/

/-- JS `String.prototype.trim` restricted to the ASCII whitespace characters
that can occur in this code base's prompts. -/
def jsWhitespace (c : Char) : Bool :=
  c == ' ' || c == '\t' || c == '\n' || c == '\r'

/-- JS `s.trim()`. -/
def jsTrim (s : String) : String :=
  ⟨((s.data.dropWhile jsWhitespace).reverse.dropWhile jsWhitespace).reverse⟩

/-- JS truthiness test `!prompt?.trim()` on a `string | undefined` value:
true when the value is `undefined` or trims to the empty string. -/
def promptBlank (prompt : Option String) : Bool :=
  match prompt with
  | none => true
  | some s => jsTrim s == ""

/-- JS `a || b` on a `string | undefined` value `a` (empty string is falsy). -/
def jsOrElse (a : Option String) (b : String) : String :=
  match a with
  | some s => if s = "" then b else s
  | none => b

/-- JS truthiness of a `string | undefined` value (`undefined` and `''` are
falsy). -/
def truthy (a : Option String) : Bool :=
  match a with
  | some s => s != ""
  | none => false

/-- `AIImageResponse` from `src/types/index.ts`. -/
structure AIImageResponse where
  success : Bool
  imageUrl : Option String
  error : Option String
deriving Repr, DecidableEq

/-- Outcome of the underlying `axios.post('/api/generate-image', ...)` call
when it is allowed to finish: either a response body (whose `imageUrl` field
the server may or may not populate) or a rejection whose extracted message is
`errMsg`. -/
inductive NetOutcome
  | ok (imageUrl : Option String)
  | fail (errMsg : String)
deriving Repr, DecidableEq

/-- `AIService.generateImage` from `src/services/aiService.ts`.
`abortedBeforeResolve` records whether the abort signal fired while the
network call was still pending; in that case axios rejects with
`ERR_CANCELED` and the catch block returns `'Request cancelled'`.  An empty
prompt throws, and the catch block turns the `Error` into its message.  The
function catches every error, so it never rejects. -/
def aiGenerateImage (prompt : String) (net : NetOutcome)
    (abortedBeforeResolve : Bool) : AIImageResponse :=
  if jsTrim prompt = "" then
    ⟨false, none, some "Prompt is required and cannot be empty"⟩
  else if abortedBeforeResolve then
    ⟨false, none, some "Request cancelled"⟩
  else
    match net with
    | .ok url => ⟨true, url, none⟩
    | .fail e => ⟨false, none, some e⟩

/-! ### `generateImageForTile` (`src/hooks/useImageGeneration.ts`, lines 68-110) -/

/-- What the `await AIService.generateImage(...)` expression did: returned a
response, or rejected (`isError` mirrors `err instanceof Error`, `errName`
mirrors `err.name`). -/
inductive AwaitOutcome
  | ret (r : AIImageResponse)
  | threw (isError : Bool) (errName : String)
deriving Repr, DecidableEq

/-- The observable effects of one `generateImageForTile` run: the
`updateImage` calls it issued, the `setError` messages it surfaced, and how
many network calls it made. -/
structure GenEffects where
  updates : List (String × ImagePatch)
  errors : List String
  netCalls : Nat
deriving Repr, DecidableEq

/-- The update `{ src: url, displayState: 'ready' }`. -/
def patchReady (url : String) : ImagePatch :=
  { ImagePatch.empty with src := some url, displayState := some .ready }

/-- The update `{ displayState: 'failed' }`. -/
def patchFailed : ImagePatch :=
  { ImagePatch.empty with displayState := some .failed }

/-- The part of `generateImageForTile` after `await AIService.generateImage`
(lines 81-109): commit on success (preload first), surface non-cancellation
failures, silently absorb cancellations.  `result.imageUrl` is tested for JS
truthiness (`undefined` and `''` are falsy); the outer catch ignores errors
whose `name` is `'AbortError'` and non-`Error` throwables. -/
def generateImageForTileFrom (tileId : String) (outcome : AwaitOutcome)
    (preloadOk : Bool) : GenEffects :=
  match outcome with
  | .ret result =>
    if result.success && truthy result.imageUrl then
      if preloadOk then
        ⟨[(tileId, patchReady (result.imageUrl.getD ""))], [], 0⟩
      else
        ⟨[(tileId, patchFailed)], [], 0⟩
    else if result.error ≠ some "Request cancelled" then
      ⟨[(tileId, patchFailed)], [jsOrElse result.error "Failed to generate image"], 0⟩
    else
      ⟨[], [], 0⟩
  | .threw isError errName =>
    if isError && (errName != "AbortError") then
      ⟨[(tileId, patchFailed)], ["Network error occurred"], 0⟩
    else
      ⟨[], [], 0⟩

/-- One full `generateImageForTile(tileId, prompt)` run (lines 68-110).  The
prompt arrives as `string | undefined` (callers in `handleImageExpand` can
pass `undefined`).  An empty prompt is reported and no network call is made;
otherwise the run issues exactly one network call, whose resolution is
`aiGenerateImage` applied to the environment's `net` outcome and to whether
this run's abort controller was aborted before that resolution. -/
def generateImageForTile (tileId : String) (prompt : Option String)
    (net : NetOutcome) (abortedBeforeResolve : Bool) (preloadOk : Bool) :
    GenEffects :=
  if promptBlank prompt then
    ⟨[], ["Cannot generate image with empty prompt"], 0⟩
  else
    let r := generateImageForTileFrom tileId
      (.ret (aiGenerateImage (prompt.getD "") net abortedBeforeResolve)) preloadOk
    ⟨r.updates, r.errors, 1⟩

/-! ### The per-tile abort-controller map (`activeRequestsRef`)

`activeRequestsRef.current : Map<string, AbortController>` is modelled as an
association list from tile id to a token number identifying the controller.
`cancelActiveRequest` (lines 59-65) aborts and removes the entry if present;
the entry is removed again right after the network call resolves (line 81)
and in the catch block (line 103) — before the preload ever starts. -/

/-- `cancelActiveRequest(tileId)`: returns the new map and the token that was
aborted, if any.  No entry means nothing is aborted. -/
def cancelActiveRequest (m : List (String × Nat)) (tileId : String) :
    List (String × Nat) × Option Nat :=
  match m.find? (fun e => e.1 = tileId) with
  | some e => (m.filter (fun e2 => ¬(e2.1 = tileId)), some e.2)
  | none => (m, none)

/-- Lines 74-77 of `generateImageForTile`: cancel any active request for the
tile, then record a fresh controller (`token`) for it.  Returns the new map
and the token aborted by the cancellation, if any. -/
def reqStart (m : List (String × Nat)) (tileId : String) (token : Nat) :
    List (String × Nat) × Option Nat :=
  let c := cancelActiveRequest m tileId
  ((tileId, token) :: c.1, c.2)

/-- Line 81 (and 103): `activeRequestsRef.current.delete(tileId)` as soon as
the awaited generation call resolves, before any preload. -/
def reqResolve (m : List (String × Nat)) (tileId : String) :
    List (String × Nat) :=
  m.filter fun e => ¬(e.1 = tileId)

/-! ### Z-index management (`src/hooks/useImageGeneration.ts`, lines 260-291) -/

/-- `MAX_Z_INDEX = 999` (matches `--z-image-max` in the CSS). -/
def MAX_Z_INDEX : Nat := 999

/-- `img.zIndex || 0`. -/
def zOrDefault (img : CanvasImage) : Nat :=
  img.zIndex.getD 0

/-- `Math.max(0, ...images.map(img => img.zIndex || 0))`. -/
def maxZ (images : List CanvasImage) : Nat :=
  images.foldl (fun acc img => max acc (zOrDefault img)) 0

/-- The ascending comparator `(a, b) => (a.zIndex || 0) - (b.zIndex || 0)`
passed to the (stable) JS `Array.prototype.sort`. -/
def zleBool (a b : CanvasImage) : Bool :=
  zOrDefault a ≤ zOrDefault b

/-- The update `{ zIndex: n }`. -/
def zIndexPatch (n : Nat) : ImagePatch :=
  { ImagePatch.empty with zIndex := some n }

/-- `normalizeZIndexes` (lines 264-271): sort a copy of the current images by
`zIndex || 0` ascending (JS sort is stable) and issue
`updateImage(img.id, { zIndex: index + 1 })` for each. -/
def normalizeZIndexes (images : List CanvasImage) : List CanvasImage :=
  let sorted := images.mergeSort zleBool
  sorted.enum.foldl
    (fun st e => updateImage st e.2.id (zIndexPatch (e.1 + 1))) images

/-- The first guard of `getSmartZIndex` (line 278):
`currentImage?.zIndex === maxZ && maxZ > 0` (with the optional chaining
yielding false when the tile is absent or its `zIndex` is `undefined`). -/
def isAlreadyTop (images : List CanvasImage) (imageId : String) : Bool :=
  match images.find? fun img => img.id = imageId with
  | some img => img.zIndex == some (maxZ images) && decide (maxZ images > 0)
  | none => false

/-- `getSmartZIndex` (lines 273-291).  Returns the z-index handed back to the
caller together with the image list after the normalization side effect (if
any).  First branch: `currentImage?.zIndex === maxZ && maxZ > 0`; second
branch: `maxZ >= MAX_Z_INDEX` normalizes and returns
`imagesRef.current.length + 1`; otherwise `maxZ + 1`. -/
def getSmartZIndex (images : List CanvasImage) (imageId : String) :
    Nat × List CanvasImage :=
  if isAlreadyTop images imageId then
    (maxZ images, images)
  else if maxZ images ≥ MAX_Z_INDEX then
    (images.length + 1, normalizeZIndexes images)
  else
    (maxZ images + 1, images)

/-- The bring-to-front path of `handleImageSelect` (line 303):
`updateImage(id, { zIndex: getSmartZIndex(id) })`, applied after the
normalization side effect of `getSmartZIndex`. -/
def bringToFront (images : List CanvasImage) (id : String) : List CanvasImage :=
  let r := getSmartZIndex images id
  updateImage r.2 id (zIndexPatch r.1)

/-- A sequence of `bringToFront` calls, oldest first. -/
def applyBrings (images : List CanvasImage) (ids : List String) :
    List CanvasImage :=
  ids.foldl bringToFront images

/-- All z-indexes are within `[0, MAX_Z_INDEX]` (a missing `zIndex` counts as
`0`, exactly as every consumer reads it). -/
def ZBounded (images : List CanvasImage) : Prop :=
  ∀ img ∈ images, zOrDefault img ≤ MAX_Z_INDEX

instance : DecidablePred ZBounded := fun images =>
  inferInstanceAs (Decidable (∀ img ∈ images, zOrDefault img ≤ MAX_Z_INDEX))

/-! ### Document serialization (`src/services/documentService.ts`) -/

/-- `SerializedCanvasImage` from `src/types/index.ts`. -/
structure SerializedCanvasImage where
  id : String
  src : String
  x : Rat
  y : Rat
  width : Rat
  height : Rat
  prompt : Option String
  zIndex : Nat
deriving Repr, DecidableEq

/-- JS `n || d` on a `number | undefined` value (`0` is falsy). -/
def jsOrNat (n : Option Nat) (d : Nat) : Nat :=
  match n with
  | some v => if v = 0 then d else v
  | none => d

/-- The serialization mapping of `DocumentService.saveDocument` (lines 53-63):
keep `id/src/x/y/width/height/prompt`, coerce `zIndex` with `img.zIndex || 1`,
drop `selected` and `displayState`. -/
def serializeImage (img : CanvasImage) : SerializedCanvasImage :=
  { id := img.id
    src := img.src
    x := img.x
    y := img.y
    width := img.width
    height := img.height
    prompt := img.prompt
    zIndex := jsOrNat img.zIndex 1 }

/-- The serialized array sent to the Document Store. -/
def serializeImages (images : List CanvasImage) : List SerializedCanvasImage :=
  images.map serializeImage

/-- `DocumentService.deserializeImages` (lines 152-159): spread the stored
record back, with `src: ''`, `selected: false`, `displayState: 'loading'`. -/
def deserializeImage (img : SerializedCanvasImage) : CanvasImage :=
  { id := img.id
    src := ""
    x := img.x
    y := img.y
    width := img.width
    height := img.height
    prompt := img.prompt
    selected := some false
    displayState := some .loading
    zIndex := some img.zIndex }

/-- Deserialization of a whole document. -/
def deserializeImages (images : List SerializedCanvasImage) : List CanvasImage :=
  images.map deserializeImage

/-! ### `saveDocument` (`src/hooks/useDocumentOperations.ts`, lines 78-146) -/

/-- `FileMenuStatus` from `src/types/index.ts`. -/
inductive FileMenuStatus
  | idle
  | saving
  | savingNewCopy
  | saved
  | copied
deriving Repr, DecidableEq

/-- `SaveDocumentResponse` from `src/types/index.ts` (the awaited result of
`DocumentService.saveDocument` / `updateDocument`, which never reject). -/
structure SaveDocumentResponse where
  success : Bool
  documentId : Option String
  error : Option String
deriving Repr, DecidableEq

/-- Observable outcome of one `saveDocument(title?, forceNew)` call from
`useDocumentOperations`: the surfaced error messages, the returned value
(`null` or `{documentId, shareUrl}`) and the number of persistence requests
issued to the Document Store. -/
structure SaveDocEffects where
  errors : List String
  result : Option (String × String)
  persistCalls : Nat
deriving Repr, DecidableEq

/-- `DocumentService.generateShareUrl` (line 247-250). -/
def generateShareUrl (documentId : String) (origin : String) : String :=
  origin ++ "/?doc=" ++ documentId

/-- `saveDocument` from `useDocumentOperations` (lines 78-146), with the
awaited Document Store response supplied by the environment.  An empty canvas
is rejected locally; a busy `fileMenuStatus` is a silent no-op; otherwise one
persistence request is issued (update when `lastSavedDocumentId` is set and
`forceNew` is false, create otherwise) and the response is converted into a
result or an error. -/
def saveDocumentOp (images : List CanvasImage) (status : FileMenuStatus)
    (lastSavedDocumentId : Option String) (forceNew : Bool)
    (service : SaveDocumentResponse) (origin : String) : SaveDocEffects :=
  if images.length = 0 then
    ⟨["Cannot save empty canvas"], none, 0⟩
  else if ¬(status = .idle) ∧ ¬(status = .saved) then
    ⟨[], none, 0⟩
  else
    if service.success = true ∧ truthy service.documentId then
      let docId := service.documentId.getD ""
      ⟨[], some (docId, generateShareUrl docId origin), 1⟩
    else
      ⟨[jsOrElse service.error "Failed to save document"], none, 1⟩

/-! ### `handleImageExpand` (`src/hooks/useImageGeneration.ts`, lines 344-432) -/

/-- `PromptVariationsResponse` from `src/types/index.ts`. -/
structure PromptVariationsResponse where
  success : Bool
  variations : Option (List String)
  error : Option String
deriving Repr, DecidableEq

/-- Store state threaded through an expansion: the image list plus the log of
error messages surfaced through `setError` (the UI error channel shows the
last entry). -/
structure CanvasState where
  images : List CanvasImage
  errors : List String
deriving Repr, DecidableEq

/-- A `setError(msg)` call with a non-null message. -/
def setErrorMsg (st : CanvasState) (msg : String) : CanvasState :=
  { st with errors := st.errors ++ [msg] }

/-- Environment of one expansion: the awaited result of
`generatePromptVariations` (the hook wrapper catches rejections and returns a
failure response, so it never throws) and, for each placeholder index, the
outcome of its generation network call and of its preload. -/
structure ExpandEnv where
  variationsResult : PromptVariationsResponse
  net : Nat → NetOutcome
  preload : Nat → Bool

/-- `GRID_GAP = 20`. -/
def GRID_GAP : Rat := 20

/-- `getImageSize`: `windowWidth <= 768 ? MOBILE_IMAGE_SIZE (128) :
STANDARD_IMAGE_SIZE (256)`. -/
def getImageSize (windowWidth : Rat) : Rat :=
  if windowWidth ≤ 768 then 128 else 256

/-- The update `{ prompt: actualPrompt }` (where `actualPrompt` may be JS
`undefined` when the variations array is shorter than 4). -/
def promptPatch (q : Option String) : ImagePatch :=
  { ImagePatch.empty with prompt := some q }

/-- One arm of the `Promise.allSettled` fan-out (lines 411-415): set the
placeholder's prompt to its variation, then run `generateImageForTile` for it
and apply that run's store updates and errors.  The four arms write to four
distinct tiles, so running them in index order is a faithful linearization. -/
def expandGenStep (st : CanvasState) (phId : String) (variation : Option String)
    (net : NetOutcome) (preloadOk : Bool) : CanvasState :=
  let st1 : CanvasState :=
    { st with images := updateImage st.images phId (promptPatch variation) }
  let eff := generateImageForTile phId variation net false preloadOk
  { images := eff.updates.foldl (fun imgs u => updateImage imgs u.1 u.2) st1.images
    errors := st1.errors ++ eff.errors }

/-- `handleImageExpand(id)` (lines 344-432).  `n0 n1 n2 n3` are the ids
produced by `generateId()` for the four placeholders.  Mirrors the source:
no-op unless the tile exists and has a truthy prompt; raise the source tile
above the four placeholders; create the placeholders in a cross layout (with
the 30%-of-size negative-space flip for the above/left directions); on a
failed or `undefined` variations result surface one error and remove the
placeholders; otherwise fan out the four generations and finally surface an
aggregate error counting the placeholders whose final state is `'failed'`. -/
def handleImageExpand (st : CanvasState) (id : String)
    (n0 n1 n2 n3 : String) (windowWidth : Rat) (env : ExpandEnv) : CanvasState :=
  match st.images.find? fun img => img.id = id with
  | none => st
  | some imageToExpand =>
    if truthy imageToExpand.prompt = false then st
    else
      let currentMaxZ := maxZ st.images
      let placeholderStartZ := currentMaxZ + 1
      let expandedImageZ := placeholderStartZ + 4
      let updatedImages := st.images.map fun img =>
        if img.id = id then { img with zIndex := some expandedImageZ } else img
      let imageSize := getImageSize windowWidth
      let crossSpacing := imageSize + GRID_GAP * 2
      let negativeThreshold := imageSize * (3 / 10)
      let mkPlaceholder := fun (phId : String) (offsetX offsetY : Rat) (i : Nat) =>
        ({ id := phId
           src := ""
           x := imageToExpand.x + offsetX
           y := imageToExpand.y + offsetY
           width := imageSize
           height := imageSize
           prompt := some (imageToExpand.prompt.getD "" ++ " (generating variation...)")
           selected := some false
           displayState := some .loading
           zIndex := some (placeholderStartZ + i) } : CanvasImage)
      let offsetY0 :=
        if imageToExpand.y - crossSpacing < -negativeThreshold
        then crossSpacing * 2 else -crossSpacing
      let offsetX1 :=
        if imageToExpand.x - crossSpacing < -negativeThreshold
        then crossSpacing * 2 else -crossSpacing
      let placeholderImages :=
        [mkPlaceholder n0 0 offsetY0 0, mkPlaceholder n1 offsetX1 0 1,
         mkPlaceholder n2 crossSpacing 0 2, mkPlaceholder n3 0 crossSpacing 3]
      let st1 : CanvasState := { st with images := updatedImages ++ placeholderImages }
      if env.variationsResult.success = false ∨ env.variationsResult.variations = none then
        let st2 := setErrorMsg st1 "Failed to generate prompt variations"
        { st2 with images := st2.images.filter fun img =>
            ¬(placeholderImages.any fun ph => ph.id == img.id) }
      else
        let vs := env.variationsResult.variations.getD []
        let st2 := expandGenStep st1 n0 vs[0]? (env.net 0) (env.preload 0)
        let st3 := expandGenStep st2 n1 vs[1]? (env.net 1) (env.preload 1)
        let st4 := expandGenStep st3 n2 vs[2]? (env.net 2) (env.preload 2)
        let st5 := expandGenStep st4 n3 vs[3]? (env.net 3) (env.preload 3)
        let failedTiles := placeholderImages.filter fun ph =>
          match st5.images.find? fun img => img.id = ph.id with
          | some t => t.displayState == some .failed
          | none => false
        if failedTiles.length > 0 then
          setErrorMsg st5
            ("Failed to generate " ++ toString failedTiles.length ++ " of 4 variations")
        else st5

/-! ## Helper lemmas -/

/-- A `map` by a function that fixes every member is the identity. -/
theorem map_eq_self_of_mem {α : Type} {l : List α} {f : α → α}
    (h : ∀ x ∈ l, f x = x) : l.map f = l := by
  induction l with
  | nil => rfl
  | cons a t ih =>
    simp only [List.map_cons, List.cons.injEq]
    exact ⟨h a (List.mem_cons_self a t), ih fun x hx => h x (List.mem_cons_of_mem a hx)⟩

/-- `selCount` distributes over append. -/
theorem selCount_append (l1 l2 : List CanvasImage) :
    selCount (l1 ++ l2) = selCount l1 + selCount l2 := by
  simp [selCount, List.filter_append]

/-- `selCount` over a cons. -/
theorem selCount_cons (a : CanvasImage) (t : List CanvasImage) :
    selCount (a :: t) = (if a.selected = some true then 1 else 0) + selCount t := by
  by_cases h : a.selected = some true <;> simp [selCount, List.filter_cons, h] <;> omega

/-- Counting the selected tiles after `selectImage(id)` is counting the tiles
whose id is `id`. -/
theorem selCount_selectImage_some (images : List CanvasImage) (id : String) :
    selCount (selectImage images (some id)) =
      List.count id (images.map CanvasImage.id) := by
  induction images with
  | nil => rfl
  | cons a t ih =>
    have hcons : selCount (selectImage (a :: t) (some id)) =
        (if a.id = id then 1 else 0) + selCount (selectImage t (some id)) := by
      rw [show selectImage (a :: t) (some id) =
          ({ a with selected := some (decide (some a.id = some id)) } : CanvasImage) ::
            selectImage t (some id) from rfl, selCount_cons]
      by_cases h : a.id = id <;> simp [h]
    rw [hcons, ih, List.map_cons, List.count_cons]
    by_cases h : a.id = id <;> simp [h] <;> omega

/-- `selectImage(null)` leaves no tile selected. -/
theorem selCount_selectImage_none (images : List CanvasImage) :
    selCount (selectImage images none) = 0 := by
  induction images with
  | nil => rfl
  | cons a t ih =>
    rw [show selectImage (a :: t) none =
        ({ a with selected := some (decide (some a.id = none)) } : CanvasImage) ::
          selectImage t none from rfl, selCount_cons, ih]
    simp

/-- A pointwise map that never turns an unselected tile into a selected one
does not increase the number of selected tiles. -/
theorem selCount_map_le (l : List CanvasImage) (f : CanvasImage → CanvasImage)
    (h : ∀ i ∈ l, (f i).selected = some true → i.selected = some true) :
    selCount (l.map f) ≤ selCount l := by
  induction l with
  | nil => exact Nat.le_refl 0
  | cons a t ih =>
    have ht := ih fun i hi => h i (List.mem_cons_of_mem a hi)
    by_cases hf : (f a).selected = some true
    · have ha := h a (List.mem_cons_self a t) hf
      simpa [selCount, List.filter_cons, hf, ha] using ht
    · by_cases ha : a.selected = some true <;>
        simp [selCount, List.filter_cons, hf, ha] at * <;> omega

/-- Removing tiles cannot increase the number of selected tiles. -/
theorem selCount_filter_le (l : List CanvasImage) (q : CanvasImage → Bool) :
    selCount (l.filter q) ≤ selCount l := by
  simpa [selCount] using
    List.Sublist.length_le ((List.filter_sublist l).filter _)

/-! ### Machinery for the z-index renormalization proofs -/

/-- Overwrite a tile's z-index. -/
def setZ (img : CanvasImage) (n : Nat) : CanvasImage :=
  { img with zIndex := some n }

theorem applyPatch_zIndexPatch (img : CanvasImage) (n : Nat) :
    applyPatch img (zIndexPatch n) = setZ img n := rfl

theorem setZ_id (img : CanvasImage) (n : Nat) : (setZ img n).id = img.id := rfl

theorem setZ_setZ (img : CanvasImage) (a b : Nat) :
    setZ (setZ img a) b = setZ img b := rfl

/-- The value of the last `{ zIndex: v }` write for a given tile id among a
list of `(tileId, value)` write instructions. -/
def lastZWrite (pairs : List (String × Nat)) (id : String) : Option Nat :=
  (pairs.reverse.find? fun q => q.1 = id).map Prod.snd

theorem lastZWrite_nil (id : String) : lastZWrite [] id = none := rfl

theorem lastZWrite_cons (q : String × Nat) (ps : List (String × Nat)) (id : String) :
    lastZWrite (q :: ps) id =
      match lastZWrite ps id with
      | some v => some v
      | none => if q.1 = id then some q.2 else none := by
  unfold lastZWrite
  rw [List.reverse_cons, List.find?_append]
  cases h : ps.reverse.find? fun e => e.1 = id with
  | some e => simp [h]
  | none =>
    by_cases hq : q.1 = id <;> simp [h, List.find?, hq]

theorem lastZWrite_eq_none (pairs : List (String × Nat)) (id : String)
    (h : ∀ q ∈ pairs, q.1 ≠ id) : lastZWrite pairs id = none := by
  unfold lastZWrite
  rw [List.find?_eq_none.mpr]
  · rfl
  · intro q hq
    simp only [decide_eq_true_eq]
    exact h q (List.mem_reverse.mp hq)

/-- A batch of `{ zIndex: v }` writes applied through `updateImage`. -/
def applyZWrites (pairs : List (String × Nat)) (st : List CanvasImage) :
    List CanvasImage :=
  pairs.foldl (fun s q => updateImage s q.1 (zIndexPatch q.2)) st

/-- Resolve a tile to its state after a batch of z-index writes. -/
def afterZWrites (pairs : List (String × Nat)) (img : CanvasImage) : CanvasImage :=
  match lastZWrite pairs img.id with
  | some v => setZ img v
  | none => img

theorem afterZWrites_id (pairs : List (String × Nat)) (img : CanvasImage) :
    (afterZWrites pairs img).id = img.id := by
  unfold afterZWrites
  cases lastZWrite pairs img.id <;> rfl

/-- A batch of z-index writes acts pointwise: each tile ends up with the last
value written for its id (or untouched when none is). -/
theorem applyZWrites_eq_map (pairs : List (String × Nat)) (st : List CanvasImage) :
    applyZWrites pairs st = st.map (afterZWrites pairs) := by
  induction pairs generalizing st with
  | nil =>
    unfold applyZWrites afterZWrites
    simp [lastZWrite_nil]
  | cons q ps ih =>
    show applyZWrites ps (updateImage st q.1 (zIndexPatch q.2)) = _
    rw [ih, updateImage, List.map_map]
    refine List.map_congr_left fun img _ => ?_
    show afterZWrites ps (if img.id = q.1 then applyPatch img (zIndexPatch q.2) else img) =
      afterZWrites (q :: ps) img
    by_cases hq : img.id = q.1
    · rw [if_pos hq, applyPatch_zIndexPatch]
      unfold afterZWrites
      rw [setZ_id, lastZWrite_cons]
      cases h : lastZWrite ps img.id with
      | some v => simp [h, setZ_setZ]
      | none => simp [h, hq.symm]
    · rw [if_neg hq]
      unfold afterZWrites
      rw [lastZWrite_cons]
      cases h : lastZWrite ps img.id with
      | some v => simp [h]
      | none =>
        have : ¬(q.1 = img.id) := fun e => hq e.symm
        simp [h, this]

/-- The write instructions `normalizeZIndexes` issues, in order: the tile at
position `k` of the stable ascending sort gets value `n + k + 1`. -/
def zPairsFrom (n : Nat) (l : List CanvasImage) : List (String × Nat) :=
  (l.enumFrom n).map fun e => (e.2.id, e.1 + 1)

theorem zPairsFrom_cons (n : Nat) (a : CanvasImage) (t : List CanvasImage) :
    zPairsFrom n (a :: t) = (a.id, n + 1) :: zPairsFrom (n + 1) t := rfl

/-- `normalizeZIndexes` is the batch of writes `zPairsFrom 0 (stable sort)`. -/
theorem normalizeZIndexes_eq_applyZWrites (images : List CanvasImage) :
    normalizeZIndexes images =
      applyZWrites (zPairsFrom 0 (images.mergeSort zleBool)) images := by
  unfold normalizeZIndexes applyZWrites zPairsFrom
  rw [List.foldl_map]
  rfl

/-- Every id written by `zPairsFrom` is the id of a member of the sorted
list, and every written value is in `[n+1, n+length]`. -/
theorem zPairsFrom_spec (n : Nat) (l : List CanvasImage) :
    ∀ q ∈ zPairsFrom n l,
      (∃ t ∈ l, q.1 = t.id) ∧ n + 1 ≤ q.2 ∧ q.2 ≤ n + l.length := by
  induction l generalizing n with
  | nil => intro q hq; cases hq
  | cons a t ih =>
    intro q hq
    rw [zPairsFrom_cons] at hq
    rcases List.mem_cons.mp hq with rfl | hq'
    · exact ⟨⟨a, List.mem_cons_self a t, rfl⟩, by omega,
        by simp only [List.length_cons]; omega⟩
    · obtain ⟨⟨u, hu, he⟩, h1, h2⟩ := ih (n + 1) q hq'
      exact ⟨⟨u, List.mem_cons_of_mem a hu, he⟩, by omega,
        by simp only [List.length_cons]; omega⟩

theorem lastZWrite_isSome_of_mem (pairs : List (String × Nat)) (id : String)
    (h : ∃ q ∈ pairs, q.1 = id) : ∃ v, lastZWrite pairs id = some v := by
  unfold lastZWrite
  cases hf : pairs.reverse.find? fun q => q.1 = id with
  | some q => exact ⟨q.2, rfl⟩
  | none =>
    obtain ⟨q, hq, hid⟩ := h
    have := List.find?_eq_none.mp hf q (List.mem_reverse.mpr hq)
    simp [hid] at this

theorem lastZWrite_mem (pairs : List (String × Nat)) (id : String) (v : Nat)
    (h : lastZWrite pairs id = some v) : (id, v) ∈ pairs := by
  unfold lastZWrite at h
  cases hf : pairs.reverse.find? fun q => q.1 = id with
  | none => rw [hf] at h; cases h
  | some q =>
    rw [hf] at h
    have hid : q.1 = id := by simpa using List.find?_some hf
    have hv : q.2 = v := by simpa using h
    have hmem : q ∈ pairs := List.mem_reverse.mp (List.mem_of_find?_eq_some hf)
    rw [← hid, ← hv]
    exact hmem

/-- With unique ids, the batch of writes of a renormalization assigns the
tile at sorted position `k` the value `n + k + 1`. -/
theorem lastZWrite_zPairsFrom_rank (l : List CanvasImage) :
    ∀ (n k : Nat) (hk : k < l.length), (l.map CanvasImage.id).Nodup →
      lastZWrite (zPairsFrom n l) ((l.get ⟨k, hk⟩).id) = some (n + k + 1) := by
  induction l with
  | nil => intro n k hk; exact absurd hk (Nat.not_lt_zero k)
  | cons a t ih =>
    intro n k hk hnd
    have hnd2 := hnd
    rw [List.map_cons, List.nodup_cons] at hnd2
    obtain ⟨hna, hnd'⟩ := hnd2
    rw [zPairsFrom_cons, lastZWrite_cons]
    cases k with
    | zero =>
      rw [show ((a :: t).get ⟨0, hk⟩) = a from rfl]
      have hz : lastZWrite (zPairsFrom (n + 1) t) a.id = none := by
        apply lastZWrite_eq_none
        intro q hq
        obtain ⟨⟨u, hu, he⟩, -, -⟩ := zPairsFrom_spec (n + 1) t q hq
        rw [he]
        intro e
        exact hna (e ▸ List.mem_map_of_mem CanvasImage.id hu)
      rw [hz]
      simp
    | succ kk =>
      have hkk : kk < t.length := by simpa [Nat.succ_lt_succ_iff] using hk
      rw [show ((a :: t).get ⟨kk + 1, hk⟩) = t.get ⟨kk, hkk⟩ from rfl]
      rw [ih (n + 1) kk hkk hnd']
      show some (n + 1 + kk + 1) = some (n + (kk + 1) + 1)
      exact congrArg some (by omega)

/-- Every tile id present in the sorted list receives some write, with a
value in `[n+1, n+length]`. -/
theorem lastZWrite_zPairsFrom_covers (l : List CanvasImage) (n : Nat) (id : String)
    (hmem : ∃ t ∈ l, t.id = id) :
    ∃ v, lastZWrite (zPairsFrom n l) id = some v ∧ n + 1 ≤ v ∧ v ≤ n + l.length := by
  obtain ⟨t, ht, rfl⟩ := hmem
  have h2 : t ∈ (l.enumFrom n).map Prod.snd := by
    rw [List.enumFrom_map_snd]; exact ht
  obtain ⟨e, he, rfl⟩ := List.mem_map.mp h2
  have hq : (e.2.id, e.1 + 1) ∈ zPairsFrom n l :=
    List.mem_map_of_mem (fun e => (e.2.id, e.1 + 1)) he
  obtain ⟨v, hv⟩ := lastZWrite_isSome_of_mem _ _ ⟨_, hq, rfl⟩
  obtain ⟨-, h1, h2⟩ := zPairsFrom_spec n l _ (lastZWrite_mem _ _ _ hv)
  exact ⟨v, hv, h1, h2⟩

/-- `normalizeZIndexes` preserves the tiles' ids and store order. -/
theorem normalizeZIndexes_ids (images : List CanvasImage) :
    (normalizeZIndexes images).map CanvasImage.id = images.map CanvasImage.id := by
  rw [normalizeZIndexes_eq_applyZWrites, applyZWrites_eq_map, List.map_map]
  exact List.map_congr_left fun img _ => afterZWrites_id _ img

/-- `normalizeZIndexes` preserves the number of tiles. -/
theorem normalizeZIndexes_length (images : List CanvasImage) :
    (normalizeZIndexes images).length = images.length := by
  rw [normalizeZIndexes_eq_applyZWrites, applyZWrites_eq_map, List.length_map]

/-- After `normalizeZIndexes`, every tile holds a z-index in `[1, N]`. -/
theorem normalizeZIndexes_bounds (images : List CanvasImage) :
    ∀ img' ∈ normalizeZIndexes images,
      ∃ v, img'.zIndex = some v ∧ 1 ≤ v ∧ v ≤ images.length := by
  intro img' h
  rw [normalizeZIndexes_eq_applyZWrites, applyZWrites_eq_map] at h
  obtain ⟨img, hmem, rfl⟩ := List.mem_map.mp h
  have hsortmem : img ∈ images.mergeSort zleBool :=
    ((images.mergeSort_perm zleBool).mem_iff).mpr hmem
  obtain ⟨v, hv, h1, h2⟩ :=
    lastZWrite_zPairsFrom_covers (images.mergeSort zleBool) 0 img.id ⟨img, hsortmem, rfl⟩
  refine ⟨v, ?_, by omega, ?_⟩
  · unfold afterZWrites
    rw [hv]
    rfl
  · have := (images.mergeSort_perm zleBool).length_eq
    omega

/-- The z-index a store read (`find?` by id) sees. -/
def zOfId (st : List CanvasImage) (tid : String) : Option Nat :=
  match st.find? fun i => i.id = tid with
  | some t => t.zIndex
  | none => none

/-- `find?` by id commutes with an id-preserving pointwise map. -/
theorem find?_id_map_preserving (st : List CanvasImage) (f : CanvasImage → CanvasImage)
    (hid : ∀ img, (f img).id = img.id) (tid : String) :
    (st.map f).find? (fun i => i.id = tid) =
      (st.find? fun i => i.id = tid).map f := by
  rw [List.find?_map]
  have : ((fun i : CanvasImage => decide (i.id = tid)) ∘ f) =
      fun i : CanvasImage => decide (i.id = tid) := by
    funext img
    simp [Function.comp, hid img]
  rw [this]

/-- `updateImage` preserves the tiles' ids and store order. -/
theorem updateImage_ids (st : List CanvasImage) (id : String) (p : ImagePatch) :
    (updateImage st id p).map CanvasImage.id = st.map CanvasImage.id := by
  unfold updateImage
  rw [List.map_map]
  refine List.map_congr_left fun img _ => ?_
  by_cases h : img.id = id <;> simp [Function.comp, h, applyPatch]

/-- What a store read sees after a single z-index write. -/
theorem zOfId_updateImage (st : List CanvasImage) (id : String) (n : Nat)
    (tid : String) :
    zOfId (updateImage st id (zIndexPatch n)) tid =
      match st.find? fun i => i.id = tid with
      | some t => if t.id = id then some n else t.zIndex
      | none => none := by
  unfold zOfId updateImage
  rw [find?_id_map_preserving st _ (fun img => by
    by_cases h : img.id = id <;> simp [h, applyPatch])]
  cases hf : st.find? fun i => i.id = tid with
  | none => rfl
  | some t =>
    by_cases h : t.id = id
    · simp [h, applyPatch_zIndexPatch, setZ]
    · simp [h]

/-- A store read into `normalizeZIndexes` resolves through the write batch. -/
theorem find?_normalizeZIndexes (images : List CanvasImage) (tid : String) :
    (normalizeZIndexes images).find? (fun i => i.id = tid) =
      (images.find? fun i => i.id = tid).map
        (afterZWrites (zPairsFrom 0 (images.mergeSort zleBool))) := by
  rw [normalizeZIndexes_eq_applyZWrites, applyZWrites_eq_map,
    find?_id_map_preserving _ _ (afterZWrites_id _)]

/-- `find?` by id succeeds when a member carries the id, and the found tile
carries it. -/
theorem find?_id_isSome (st : List CanvasImage) (tid : String)
    (h : ∃ t ∈ st, t.id = tid) :
    ∃ u, st.find? (fun i => i.id = tid) = some u ∧ u.id = tid := by
  cases hf : st.find? fun i => i.id = tid with
  | some u => exact ⟨u, rfl, by simpa using List.find?_some hf⟩
  | none =>
    obtain ⟨t, ht, hid⟩ := h
    have := List.find?_eq_none.mp hf t ht
    simp [hid] at this

/-- After a renormalization triggered for target `id`, the tile at position
`k` of the stable ascending sort reads back `k + 1`, and the target reads
back `N + 1`. -/
theorem zOfId_after_renormalize (images : List CanvasImage) (id : String)
    (hnd : (images.map CanvasImage.id).Nodup) (k : Nat)
    (hk : k < (images.mergeSort zleBool).length) :
    zOfId (updateImage (normalizeZIndexes images) id
        (zIndexPatch (images.length + 1)))
      ((images.mergeSort zleBool).get ⟨k, hk⟩).id =
    some (if ((images.mergeSort zleBool).get ⟨k, hk⟩).id = id
      then images.length + 1 else k + 1) := by
  have hperm := images.mergeSort_perm zleBool
  have hndsort : ((images.mergeSort zleBool).map CanvasImage.id).Nodup :=
    ((hperm.map CanvasImage.id).nodup_iff).mpr hnd
  have hmemimg : (images.mergeSort zleBool).get ⟨k, hk⟩ ∈ images :=
    hperm.mem_iff.mp (List.get_mem _ k hk)
  obtain ⟨u, hu, huid⟩ :=
    find?_id_isSome images ((images.mergeSort zleBool).get ⟨k, hk⟩).id
      ⟨_, hmemimg, rfl⟩
  rw [zOfId_updateImage, find?_normalizeZIndexes, hu]
  show (if (afterZWrites _ u).id = id then some (images.length + 1)
    else (afterZWrites _ u).zIndex) = _
  rw [afterZWrites_id, huid]
  by_cases htgt : ((images.mergeSort zleBool).get ⟨k, hk⟩).id = id
  · rw [if_pos htgt, if_pos htgt]
  · rw [if_neg htgt, if_neg htgt]
    unfold afterZWrites
    rw [huid, lastZWrite_zPairsFrom_rank _ 0 k hk hndsort]
    simp [setZ]

/-- In the renormalization branch, `bringToFront` is the batch renormalize
followed by the target write `N + 1`. -/
theorem bringToFront_renormalize_branch (images : List CanvasImage) (id : String)
    (htop : isAlreadyTop images id = false)
    (hmax : maxZ images ≥ MAX_Z_INDEX) :
    bringToFront images id =
      updateImage (normalizeZIndexes images) id
        (zIndexPatch (images.length + 1)) := by
  unfold bringToFront getSmartZIndex
  rw [htop]
  simp [hmax]

theorem zleBool_trans (a b c : CanvasImage) (h1 : zleBool a b) (h2 : zleBool b c) :
    zleBool a c := by
  simp only [zleBool, decide_eq_true_eq] at *
  omega

theorem zleBool_total (a b : CanvasImage) : zleBool a b || zleBool b a := by
  simp only [zleBool, Bool.or_eq_true, decide_eq_true_eq]
  omega

/-- Two positions of a list, in order, form a two-element sublist. -/
theorem pair_sublist_of_get {α : Type} (l : List α) :
    ∀ (i j : Nat) (hi : i < l.length) (hj : j < l.length), i < j →
      ([l.get ⟨i, hi⟩, l.get ⟨j, hj⟩]).Sublist l := by
  induction l with
  | nil => intro i j hi _ _; exact absurd hi (Nat.not_lt_zero i)
  | cons a t ih =>
    intro i j hi hj hij
    cases i with
    | zero =>
      cases j with
      | zero => omega
      | succ jj =>
        have hjj : jj < t.length := by simpa [Nat.succ_lt_succ_iff] using hj
        rw [show ((a :: t).get ⟨0, hi⟩) = a from rfl,
          show ((a :: t).get ⟨jj + 1, hj⟩) = t.get ⟨jj, hjj⟩ from rfl]
        exact List.Sublist.cons₂ a
          (List.singleton_sublist.mpr (List.get_mem t jj hjj))
    | succ ii =>
      cases j with
      | zero => omega
      | succ jj =>
        have hii : ii < t.length := by simpa [Nat.succ_lt_succ_iff] using hi
        have hjj : jj < t.length := by simpa [Nat.succ_lt_succ_iff] using hj
        rw [show ((a :: t).get ⟨ii + 1, hi⟩) = t.get ⟨ii, hii⟩ from rfl,
          show ((a :: t).get ⟨jj + 1, hj⟩) = t.get ⟨jj, hjj⟩ from rfl]
        exact List.Sublist.cons a (ih ii jj hii hjj (by omega))

/-- A two-element sublist sits at an ordered pair of positions. -/
theorem pair_positions_of_sublist {α : Type} (a b : α) (l : List α)
    (h : ([a, b]).Sublist l) :
    ∃ (p q : Nat) (hp : p < l.length) (hq : q < l.length),
      p < q ∧ l.get ⟨p, hp⟩ = a ∧ l.get ⟨q, hq⟩ = b := by
  rw [List.sublist_iff_exists_fin_orderEmbedding_get_eq] at h
  obtain ⟨f, hf⟩ := h
  have h01 : (⟨0, by simp⟩ : Fin [a, b].length) < ⟨1, by simp⟩ := by
    simp [Fin.lt_def]
  have hlt := f.strictMono h01
  refine ⟨(f ⟨0, by simp⟩).1, (f ⟨1, by simp⟩).1, (f ⟨0, by simp⟩).2,
    (f ⟨1, by simp⟩).2, hlt, ?_, ?_⟩
  · have := hf ⟨0, by simp⟩
    simp only [List.get] at this
    exact this.symm
  · have := hf ⟨1, by simp⟩
    simp only [List.get] at this
    exact this.symm

/-- After a renormalization for target `id`, two non-target tiles that were
ordered by old z-index (ties resolved by store position) read back strictly
ordered new z-indexes. -/
theorem renormalize_respects_order (images : List CanvasImage) (id : String)
    (hnd : (images.map CanvasImage.id).Nodup) (i j : Nat)
    (hi : i < images.length) (hj : j < images.length)
    (hti : (images.get ⟨i, hi⟩).id ≠ id) (htj : (images.get ⟨j, hj⟩).id ≠ id)
    (hrel : zOrDefault (images.get ⟨i, hi⟩) < zOrDefault (images.get ⟨j, hj⟩) ∨
      (i < j ∧ zOrDefault (images.get ⟨i, hi⟩) = zOrDefault (images.get ⟨j, hj⟩))) :
    ∃ vi vj,
      zOfId (updateImage (normalizeZIndexes images) id
          (zIndexPatch (images.length + 1))) (images.get ⟨i, hi⟩).id = some vi ∧
      zOfId (updateImage (normalizeZIndexes images) id
          (zIndexPatch (images.length + 1))) (images.get ⟨j, hj⟩).id = some vj ∧
      vi < vj := by
  have hperm := images.mergeSort_perm zleBool
  have hndsort : ((images.mergeSort zleBool).map CanvasImage.id).Nodup :=
    ((hperm.map CanvasImage.id).nodup_iff).mpr hnd
  have hndsort' : (images.mergeSort zleBool).Nodup := hndsort.of_map
  have hsorted : (images.mergeSort zleBool).Pairwise (fun a b => zleBool a b) :=
    List.sorted_mergeSort zleBool_trans zleBool_total images
  have hmi : images.get ⟨i, hi⟩ ∈ images.mergeSort zleBool :=
    hperm.mem_iff.mpr (List.get_mem images i hi)
  have hmj : images.get ⟨j, hj⟩ ∈ images.mergeSort zleBool :=
    hperm.mem_iff.mpr (List.get_mem images j hj)
  obtain ⟨⟨p, hp⟩, hpe⟩ := List.mem_iff_get.mp hmi
  obtain ⟨⟨q, hq⟩, hqe⟩ := List.mem_iff_get.mp hmj
  have hvi := zOfId_after_renormalize images id hnd p hp
  have hvj := zOfId_after_renormalize images id hnd q hq
  rw [hpe] at hvi
  rw [hqe] at hvj
  rw [if_neg hti] at hvi
  rw [if_neg htj] at hvj
  refine ⟨p + 1, q + 1, hvi, hvj, ?_⟩
  have hpq : p < q := by
    rcases hrel with hstrict | ⟨hij, htie⟩
    · by_contra hle
      rcases Nat.lt_or_ge q p with hqp | hge
      · have := List.pairwise_iff_get.mp hsorted ⟨q, hq⟩ ⟨p, hp⟩ hqp
        rw [hpe, hqe] at this
        simp only [zleBool, decide_eq_true_eq] at this
        omega
      · have hqp : q = p := by omega
        subst hqp
        rw [hpe] at hqe
        rw [hqe] at hstrict
        omega
    · have hab : zleBool (images.get ⟨i, hi⟩) (images.get ⟨j, hj⟩) := by
        simp only [zleBool, decide_eq_true_eq]
        omega
      have hsub := List.pair_sublist_mergeSort zleBool_trans zleBool_total hab
        (pair_sublist_of_get images i j hi hj hij)
      obtain ⟨p', q', hp', hq', hpq', hpe', hqe'⟩ :=
        pair_positions_of_sublist _ _ _ hsub
      have hip : (⟨p, hp⟩ : Fin (images.mergeSort zleBool).length) = ⟨p', hp'⟩ :=
        hndsort'.get_inj_iff.mp (by rw [hpe, hpe'])
      have hiq : (⟨q, hq⟩ : Fin (images.mergeSort zleBool).length) = ⟨q', hq'⟩ :=
        hndsort'.get_inj_iff.mp (by rw [hqe, hqe'])
      have : p = p' := congrArg Fin.val hip
      have : q = q' := congrArg Fin.val hiq
      omega
  omega

theorem maxZ_le_of (images : List CanvasImage) (B : Nat)
    (h : ∀ img ∈ images, zOrDefault img ≤ B) : maxZ images ≤ B := by
  unfold maxZ
  have gen : ∀ (l : List CanvasImage) (acc : Nat), acc ≤ B →
      (∀ img ∈ l, zOrDefault img ≤ B) →
      l.foldl (fun a i => max a (zOrDefault i)) acc ≤ B := by
    intro l
    induction l with
    | nil => intro acc ha _; exact ha
    | cons a t ih =>
      intro acc ha hl
      refine ih (max acc (zOrDefault a)) ?_ fun x hx => hl x (List.mem_cons_of_mem a hx)
      have := hl a (List.mem_cons_self a t)
      omega
  exact gen images 0 (Nat.zero_le B) h

theorem updateImage_length (st : List CanvasImage) (id : String) (p : ImagePatch) :
    (updateImage st id p).length = st.length :=
  List.length_map st _

theorem updateImage_zBounded (st : List CanvasImage) (id : String) (v : Nat)
    (hb : ZBounded st) (hv : v ≤ MAX_Z_INDEX) :
    ZBounded (updateImage st id (zIndexPatch v)) := by
  intro img' h
  unfold updateImage at h
  obtain ⟨img, hm, rfl⟩ := List.mem_map.mp h
  by_cases hid : img.id = id
  · rw [if_pos hid, applyPatch_zIndexPatch]
    simpa [zOrDefault, setZ] using hv
  · rw [if_neg hid]
    exact hb img hm

/-- One `bringToFront` keeps every z-index within the ceiling and preserves
the tile count, given at most 998 tiles. -/
theorem bringToFront_step (st : List CanvasImage) (id : String)
    (hlen : st.length ≤ 998) (hb : ZBounded st) :
    ZBounded (bringToFront st id) ∧ (bringToFront st id).length = st.length := by
  unfold bringToFront getSmartZIndex
  by_cases htop : isAlreadyTop st id
  · rw [if_pos htop]
    exact ⟨updateImage_zBounded st id _ hb (maxZ_le_of st MAX_Z_INDEX hb),
      updateImage_length st id _⟩
  · rw [if_neg htop]
    by_cases hmax : maxZ st ≥ MAX_Z_INDEX
    · rw [if_pos hmax]
      have hnb : ZBounded (normalizeZIndexes st) := by
        intro img' h
        obtain ⟨v, hv, -, h2⟩ := normalizeZIndexes_bounds st img' h
        show zOrDefault img' ≤ MAX_Z_INDEX
        unfold zOrDefault MAX_Z_INDEX
        rw [hv]
        simp only [Option.getD_some]
        omega
      refine ⟨updateImage_zBounded _ id _ hnb ?_, ?_⟩
      · show st.length + 1 ≤ MAX_Z_INDEX
        unfold MAX_Z_INDEX
        omega
      · rw [updateImage_length, normalizeZIndexes_length]
    · rw [if_neg hmax]
      have : maxZ st + 1 ≤ MAX_Z_INDEX := by
        unfold MAX_Z_INDEX at *
        omega
      exact ⟨updateImage_zBounded st id _ hb this, updateImage_length st id _⟩

theorem applyBrings_bounded (ids : List String) :
    ∀ init : List CanvasImage, init.length ≤ 998 → ZBounded init →
      ZBounded (applyBrings init ids) := by
  induction ids with
  | nil => intro init _ hb; exact hb
  | cons a rest ih =>
    intro init hlen hb
    obtain ⟨hb', hl'⟩ := bringToFront_step init a hlen hb
    exact ih (bringToFront init a) (by rw [hl']; exact hlen) hb'

/-! ## Claims -/

/-- **C5.** `generate(tileId, prompt)` with a prompt that is empty after
trimming (or JS `undefined`) reports the error `'Cannot generate image with
empty prompt'`, performs no store update, and issues no network call (the
model function returns, so nothing is thrown). -/
theorem generate_rejects_blank_prompt (tileId : String) (prompt : Option String)
    (net : NetOutcome) (abortedBeforeResolve preloadOk : Bool)
    (h : promptBlank prompt = true) :
    generateImageForTile tileId prompt net abortedBeforeResolve preloadOk =
      ⟨[], ["Cannot generate image with empty prompt"], 0⟩ := by
  simp [generateImageForTile, h]

/-- Witness for C5: a whitespace-only prompt is rejected with no network
call and no update. -/
theorem generate_rejects_blank_prompt_witness :
    promptBlank (some "   ") = true ∧
    generateImageForTile "tile1" (some "   ") (.ok (some "http://img")) false true =
      ⟨[], ["Cannot generate image with empty prompt"], 0⟩ :=
  ⟨by decide, generate_rejects_blank_prompt "tile1" (some "   ") (.ok (some "http://img"))
    false true (by decide)⟩

/-- **C9.** `update(id, partialFields)` for an `id` that no tile carries
leaves the collection exactly unchanged (and, being a total function, raises
nothing). -/
theorem update_missing_id_noop (images : List CanvasImage) (id : String)
    (p : ImagePatch) (h : ∀ img ∈ images, img.id ≠ id) :
    updateImage images id p = images := by
  unfold updateImage
  exact map_eq_self_of_mem fun img hm => by
    simp [h img hm]

/-- A ready tile used by concrete witnesses: `tileRA idv z` has id `idv`,
prompt `"cat"`, display state `'ready'` and z-index `z`. -/
def tileRA (idv : String) (z : Nat) : CanvasImage :=
  ⟨idv, "http://img", 0, 0, 256, 256, some "cat", some false, some .ready, some z⟩

/-- Witness for C9: updating a missing id over a one-tile store changes
nothing. -/
theorem update_missing_id_noop_witness :
    (∀ img ∈ [tileRA "a" 1], img.id ≠ "b") ∧
    updateImage [tileRA "a" 1] "b" (zIndexPatch 5) = [tileRA "a" 1] :=
  ⟨by decide, update_missing_id_noop _ "b" (zIndexPatch 5) (by decide)⟩

/-- **C10.** `saveDocument` on an empty canvas surfaces exactly the error
`'Cannot save empty canvas'`, returns `null`, and issues no persistence
request, whatever the menu status, document id, `forceNew` flag and service
behaviour are. -/
theorem save_empty_canvas_rejected (status : FileMenuStatus)
    (lastSavedDocumentId : Option String) (forceNew : Bool)
    (service : SaveDocumentResponse) (origin : String) :
    saveDocumentOp [] status lastSavedDocumentId forceNew service origin =
      ⟨["Cannot save empty canvas"], none, 0⟩ := by
  simp [saveDocumentOp]

/-- **C4.** A generation request whose token is aborted while the call is in
flight resolves as `'Request cancelled'`, and a run that ends in cancellation
— the response `'Request cancelled'`, or an `AbortError` rejection — issues
no store update and surfaces no error message. -/
theorem cancelled_generation_is_silent (tileId : String) (preloadOk : Bool)
    (s : String) (net : NetOutcome) (h : jsTrim s ≠ "") :
    aiGenerateImage s net true = ⟨false, none, some "Request cancelled"⟩ ∧
    generateImageForTileFrom tileId
      (.ret ⟨false, none, some "Request cancelled"⟩) preloadOk = ⟨[], [], 0⟩ ∧
    generateImageForTileFrom tileId (.threw true "AbortError") preloadOk =
      ⟨[], [], 0⟩ := by
  refine ⟨by simp [aiGenerateImage, h], ?_, by simp [generateImageForTileFrom]⟩
  simp [generateImageForTileFrom, truthy]

/-- Witness for C4: a concrete aborted-in-flight run commits nothing. -/
theorem cancelled_generation_is_silent_witness :
    jsTrim "cat" ≠ "" ∧
    (aiGenerateImage "cat" (.ok (some "http://img")) true =
        ⟨false, none, some "Request cancelled"⟩ ∧
      generateImageForTileFrom "tile1"
        (.ret ⟨false, none, some "Request cancelled"⟩) true = ⟨[], [], 0⟩ ∧
      generateImageForTileFrom "tile1" (.threw true "AbortError") true =
        ⟨[], [], 0⟩) :=
  ⟨by decide, cancelled_generation_is_silent "tile1" true "cat" (.ok (some "http://img"))
    (by decide)⟩

/-- **C6.** Serializing a tile collection through the Document Store contract
and deserializing it reconstructs every tile with identical `id`, position
(`x`, `y`), size (`width`, `height`), `prompt` and `zIndex`, while
`displayState` is reset to `'loading'` and `selected` to `false` (and `src`
is cleared pending a fresh preload).  The hypothesis is the spec's data-model
invariant that every tile carries a positive `zIndex` (the serializer's
`img.zIndex || 1` is the identity exactly there). -/
theorem serialize_deserialize_round_trip (images : List CanvasImage)
    (h : ∀ img ∈ images, img.zIndex ≠ none ∧ img.zIndex ≠ some 0) :
    deserializeImages (serializeImages images) =
      images.map fun img =>
        { img with src := "", selected := some false,
                   displayState := some .loading } := by
  unfold deserializeImages serializeImages
  rw [List.map_map]
  refine List.map_congr_left fun img hm => ?_
  obtain ⟨h1, h2⟩ := h img hm
  cases hz : img.zIndex with
  | none => exact absurd hz h1
  | some z =>
    have hz0 : ¬(z = 0) := fun e => h2 (by rw [hz, e])
    simp [Function.comp, deserializeImage, serializeImage, jsOrNat, hz, hz0]

/-- Witness for C6: a concrete two-tile collection round-trips with exactly
the UI fields reset. -/
theorem serialize_deserialize_round_trip_witness :
    (∀ img ∈ [tileRA "a" 3, tileRA "b" 7], img.zIndex ≠ none ∧ img.zIndex ≠ some 0) ∧
    deserializeImages (serializeImages [tileRA "a" 3, tileRA "b" 7]) =
      [⟨"a", "", 0, 0, 256, 256, some "cat", some false, some .loading, some 3⟩,
       ⟨"b", "", 0, 0, 256, 256, some "cat", some false, some .loading, some 7⟩] := by
  refine ⟨by decide, ?_⟩
  have := serialize_deserialize_round_trip [tileRA "a" 3, tileRA "b" 7] (by decide)
  rw [this]
  decide

/-- A selected tile used by concrete counterexamples and witnesses. -/
def tileSel (idv : String) (z : Nat) : CanvasImage :=
  ⟨idv, "http://img", 0, 0, 256, 256, some "cat", some true, some .ready, some z⟩

/-- **C7, counterexample.** Not every core operation preserves the
at-most-one-selected invariant: `add` appends the given tile verbatim, so
adding a tile with `selected = true` to a store that already has a selected
tile yields two selected tiles.  (`createNewTile` does exactly this — it adds
the new tile with `selected: true` and only re-establishes the invariant by
calling `selectImage` immediately afterwards.) -/
theorem add_can_break_selection_invariant :
    AtMostOneSelected [tileSel "a" 1] ∧
    addImage [tileSel "a" 1] (tileSel "b" 2) = [tileSel "a" 1, tileSel "b" 2] ∧
    ¬AtMostOneSelected (addImage [tileSel "a" 1] (tileSel "b" 2)) := by
  refine ⟨by decide, by decide, by decide⟩

/-- **C7, amended.** `select(id)` sets `selected = true` exactly on the
tiles whose id is `id` (so, with unique ids, on exactly that tile — exactly
one tile when the id is present) and `false` on all others; `select(null)`
deselects every tile.  `select` and `delete` always preserve the
at-most-one-selected invariant; `add` preserves it provided the added tile
is not selected, and `update` preserves it provided the partial-fields
argument does not set `selected` to `true` (the code's `createNewTile` adds a
selected tile and immediately re-establishes the invariant via `select`). -/
theorem selection_invariant_amended :
    (∀ images idq img', img' ∈ selectImage images idq →
      img'.selected = some (decide (some img'.id = idq))) ∧
    (∀ images (id : String), (images.map CanvasImage.id).Nodup →
      id ∈ images.map CanvasImage.id →
      selCount (selectImage images (some id)) = 1) ∧
    (∀ images, selCount (selectImage images none) = 0) ∧
    (∀ images idq, (images.map CanvasImage.id).Nodup →
      AtMostOneSelected (selectImage images idq)) ∧
    (∀ images id, AtMostOneSelected images →
      AtMostOneSelected (deleteImage images id)) ∧
    (∀ images img, AtMostOneSelected images → img.selected ≠ some true →
      AtMostOneSelected (addImage images img)) ∧
    (∀ images id p, AtMostOneSelected images → p.selected ≠ some true →
      AtMostOneSelected (updateImage images id p)) := by
  refine ⟨?_, ?_, ?_, ?_, ?_, ?_, ?_⟩
  · intro images idq img' hm
    unfold selectImage at hm
    obtain ⟨img, _, rfl⟩ := List.mem_map.mp hm
    rfl
  · intro images id hnd hmem
    rw [selCount_selectImage_some]
    exact List.count_eq_one_of_mem hnd hmem
  · intro images
    exact selCount_selectImage_none images
  · intro images idq hnd
    cases idq with
    | none =>
      unfold AtMostOneSelected
      rw [selCount_selectImage_none]
      exact Nat.zero_le 1
    | some id =>
      unfold AtMostOneSelected
      rw [selCount_selectImage_some]
      exact List.nodup_iff_count_le_one.mp hnd id
  · intro images id h
    exact Nat.le_trans (selCount_filter_le images _) h
  · intro images img h hsel
    unfold AtMostOneSelected at *
    rw [addImage, selCount_append]
    have : selCount [img] = 0 := by simp [selCount, List.filter_cons, hsel]
    omega
  · intro images id p h hsel
    refine Nat.le_trans (selCount_map_le images _ fun i _ hi => ?_) h
    by_cases hid : i.id = id
    · rw [if_pos hid] at hi
      unfold applyPatch at hi
      simp only at hi
      cases hp : p.selected with
      | none => rw [hp] at hi; exact hi
      | some b =>
        rw [hp] at hi
        cases b with
        | true => exact absurd hp hsel
        | false => exact absurd hi (by simp)
    · rwa [if_neg hid] at hi

/-- Witness for C7's amended theorem at concrete inputs: selecting `"b"` in a
two-tile store selects exactly one tile; a non-selected add, a non-selecting
update and a delete all preserve the invariant. -/
theorem selection_invariant_amended_witness :
    selCount (selectImage [tileSel "a" 1, tileRA "b" 2] (some "b")) = 1 ∧
    AtMostOneSelected (deleteImage [tileSel "a" 1, tileRA "b" 2] "a") ∧
    AtMostOneSelected (addImage [tileSel "a" 1] (tileRA "b" 2)) ∧
    AtMostOneSelected (updateImage [tileSel "a" 1] "a" patchFailed) :=
  ⟨selection_invariant_amended.2.1 [tileSel "a" 1, tileRA "b" 2] "b"
      (by decide) (by decide),
   selection_invariant_amended.2.2.2.2.1 [tileSel "a" 1, tileRA "b" 2] "a"
      (by decide),
   selection_invariant_amended.2.2.2.2.2.1 [tileSel "a" 1] (tileRA "b" 2)
      (by decide) (by decide),
   selection_invariant_amended.2.2.2.2.2.2 [tileSel "a" 1] "a" patchFailed
      (by decide) (by decide)⟩

/-- A `filter` keeping exactly the tiles whose id is carried by none of
`phs`: appended `phs` tiles are dropped, tiles with fresh ids are kept. -/
theorem filter_out_placeholders (orig phs : List CanvasImage)
    (hids : ∀ img ∈ orig, ∀ ph ∈ phs, ¬(ph.id = img.id)) :
    (orig ++ phs).filter (fun img => ¬(phs.any fun ph => ph.id == img.id)) = orig := by
  rw [List.filter_append]
  have h1 : orig.filter (fun img => ¬(phs.any fun ph => ph.id == img.id)) = orig := by
    rw [List.filter_eq_self]
    intro img hm
    simp only [List.any_eq_true, beq_iff_eq, decide_eq_true_eq, not_exists, not_and]
    intro ph hph
    exact hids img hm ph hph
  have h2 : phs.filter (fun img => ¬(phs.any fun ph => ph.id == img.id)) = [] := by
    rw [List.filter_eq_nil_iff]
    intro ph hph
    simp only [List.any_eq_true, beq_iff_eq, decide_eq_true_eq, not_exists, not_and,
      not_forall, Decidable.not_not]
    exact ⟨ph, hph, rfl⟩
  rw [h1, h2, List.append_nil]

/-- **C2, counterexample.** A Prompt Variation Service result that succeeds
with fewer than four variations is *not* rolled back: expanding a one-tile
canvas with a successful two-variation response leaves all four placeholders
in the store (the last two stuck in `'loading'` with an `undefined` prompt)
and surfaces two `'Cannot generate image with empty prompt'` errors rather
than exactly one error. -/
theorem expand_short_variations_not_rolled_back :
    (handleImageExpand ⟨[tileRA "s" 1], []⟩ "s" "p0" "p1" "p2" "p3" 1024
        ⟨⟨true, some ["v0", "v1"], none⟩, fun _ => .ok (some "u"), fun _ => true⟩).images.map
        CanvasImage.id = ["s", "p0", "p1", "p2", "p3"] ∧
    (handleImageExpand ⟨[tileRA "s" 1], []⟩ "s" "p0" "p1" "p2" "p3" 1024
        ⟨⟨true, some ["v0", "v1"], none⟩, fun _ => .ok (some "u"), fun _ => true⟩).errors =
      ["Cannot generate image with empty prompt",
       "Cannot generate image with empty prompt"] := by
  refine ⟨by decide, by decide⟩

/-- **C2, amended.** The rollback happens exactly when the variations call
fails or resolves without a variations array (`!variationsResult.success ||
!variationsResult.variations`): then all four placeholders are removed (the
source tile keeps its raised z-index) and exactly one error — `'Failed to
generate prompt variations'` — is surfaced; no placeholder remains.  A
successful response whose array is merely shorter than four is not detected
(see the counterexample). -/
theorem expand_failed_variations_rolls_back (st : CanvasState)
    (id n0 n1 n2 n3 : String) (windowWidth : Rat) (env : ExpandEnv)
    (imageToExpand : CanvasImage)
    (hfind : st.images.find? (fun img => img.id = id) = some imageToExpand)
    (hprompt : truthy imageToExpand.prompt = true)
    (hfail : env.variationsResult.success = false ∨
      env.variationsResult.variations = none)
    (hfresh : ∀ img ∈ st.images,
      img.id ≠ n0 ∧ img.id ≠ n1 ∧ img.id ≠ n2 ∧ img.id ≠ n3) :
    handleImageExpand st id n0 n1 n2 n3 windowWidth env =
      ⟨st.images.map (fun img => if img.id = id
          then { img with zIndex := some (maxZ st.images + 1 + 4) } else img),
        st.errors ++ ["Failed to generate prompt variations"]⟩ := by
  unfold handleImageExpand
  rw [hfind]
  simp only [hprompt, Bool.true_eq_false, if_false, if_pos hfail, setErrorMsg]
  refine congrArg₂ CanvasState.mk ?_ rfl
  refine filter_out_placeholders _ _ fun img hm ph hph => ?_
  obtain ⟨img0, hm0, rfl⟩ := List.mem_map.mp hm
  obtain ⟨f1, f2, f3, f4⟩ := hfresh img0 hm0
  have hid : (if img0.id = id
      then { img0 with zIndex := some (maxZ st.images + 1 + 4) } else img0).id =
      img0.id := by
    by_cases h : img0.id = id <;> simp [h]
  rw [hid]
  simp only [List.mem_cons, List.not_mem_nil, or_false] at hph
  rcases hph with rfl | rfl | rfl | rfl
  · exact fun e => f1 e.symm
  · exact fun e => f2 e.symm
  · exact fun e => f3 e.symm
  · exact fun e => f4 e.symm

/-- Witness for C2's amended theorem: a failed variations call on a one-tile
canvas removes all four placeholders and surfaces exactly one error. -/
theorem expand_failed_variations_rolls_back_witness :
    handleImageExpand ⟨[tileRA "s" 1], []⟩ "s" "p0" "p1" "p2" "p3" 1024
        ⟨⟨false, none, some "boom"⟩, fun _ => .ok (some "u"), fun _ => true⟩ =
      ⟨[{ tileRA "s" 1 with zIndex := some 6 }],
        ["Failed to generate prompt variations"]⟩ := by
  have h := expand_failed_variations_rolls_back ⟨[tileRA "s" 1], []⟩ "s"
    "p0" "p1" "p2" "p3" 1024
    ⟨⟨false, none, some "boom"⟩, fun _ => .ok (some "u"), fun _ => true⟩
    (tileRA "s" 1) (by decide) (by decide) (Or.inl rfl) (by decide)
  rw [h]
  decide

/-- With unique ids, any member carrying the id found by `find?` *is* the
found tile. -/
theorem eq_found_of_nodup (images : List CanvasImage) (id : String)
    (img t : CanvasImage) (hnd : (images.map CanvasImage.id).Nodup)
    (hfind : images.find? (fun i => i.id = id) = some img)
    (ht : t ∈ images) (hid : t.id = id) : t = img := by
  have himg : img ∈ images := List.mem_of_find?_eq_some hfind
  have hpid : img.id = id := by simpa using List.find?_some hfind
  exact List.inj_on_of_nodup_map hnd ht himg (by rw [hid, hpid])

/-- **C8.** When the target tile already holds the maximal z-index and that
maximum is positive, `bringToFront` returns the existing z-index with no
renormalization and leaves the store exactly unchanged — so calling it twice
in a row on the already-topmost tile changes nothing either time. -/
theorem bring_to_front_topmost_noop (images : List CanvasImage) (id : String)
    (img : CanvasImage) (hnd : (images.map CanvasImage.id).Nodup)
    (hfind : images.find? (fun i => i.id = id) = some img)
    (hz : img.zIndex = some (maxZ images)) (hpos : maxZ images > 0) :
    getSmartZIndex images id = (maxZ images, images) ∧
    bringToFront images id = images ∧
    bringToFront (bringToFront images id) id = images := by
  have hsmart : getSmartZIndex images id = (maxZ images, images) := by
    unfold getSmartZIndex isAlreadyTop
    rw [hfind]
    simp [hz, hpos]
  have hupd : updateImage images id (zIndexPatch (maxZ images)) = images := by
    unfold updateImage
    refine map_eq_self_of_mem fun t ht => ?_
    by_cases hid : t.id = id
    · have : t = img := eq_found_of_nodup images id img t hnd hfind ht hid
      subst this
      simp only [if_pos hid]
      unfold applyPatch zIndexPatch ImagePatch.empty
      simp [hz.symm]
    · rw [if_neg hid]
  have hbring : bringToFront images id = images := by
    unfold bringToFront
    rw [hsmart]
    exact hupd
  exact ⟨hsmart, hbring, by rw [hbring, hbring]⟩

/-- Witness for C8: in a two-tile store whose topmost tile `"b"` is brought
to front, nothing changes, twice in a row. -/
theorem bring_to_front_topmost_noop_witness :
    getSmartZIndex [tileRA "a" 1, tileRA "b" 2] "b" =
      (maxZ [tileRA "a" 1, tileRA "b" 2], [tileRA "a" 1, tileRA "b" 2]) ∧
    bringToFront [tileRA "a" 1, tileRA "b" 2] "b" = [tileRA "a" 1, tileRA "b" 2] ∧
    bringToFront (bringToFront [tileRA "a" 1, tileRA "b" 2] "b") "b" =
      [tileRA "a" 1, tileRA "b" 2] :=
  bring_to_front_topmost_noop [tileRA "a" 1, tileRA "b" 2] "b" (tileRA "b" 2)
    (by decide) (by decide) (by decide) (by decide)

/-- **C3.** When `bringToFront` runs with the current maximum z-index at the
ceiling (`maxZ >= 999`) for a non-topmost target, it renormalizes: the store
keeps its tiles in order (first conjunct), the stable ascending sort of the
previous z-indexes is a permutation of the tiles sorted by old z-index
(second and third conjuncts), the tile at position `k` of that order reads
back `k + 1` while the target reads back `N + 1` (fourth conjunct), and any
two non-target tiles ordered by old z-index — ties broken by store
(insertion) order — read back strictly ordered new z-indexes, i.e. the
previous relative order is preserved exactly (fifth conjunct).  Moreover
(final conjunct), starting from any store of at most 998 tiles whose
z-indexes are within `[0, 999]`, no sequence of `bringToFront` calls ever
pushes any tile's z-index above 999. -/
theorem z_renormalization_and_bound :
    (∀ (images : List CanvasImage) (id : String),
      (images.map CanvasImage.id).Nodup →
      isAlreadyTop images id = false →
      maxZ images ≥ MAX_Z_INDEX →
      ((bringToFront images id).map CanvasImage.id = images.map CanvasImage.id ∧
        (images.mergeSort zleBool).Perm images ∧
        (images.mergeSort zleBool).Pairwise
          (fun a b => zOrDefault a ≤ zOrDefault b) ∧
        (∀ (k : Nat) (hk : k < (images.mergeSort zleBool).length),
          zOfId (bringToFront images id)
              ((images.mergeSort zleBool).get ⟨k, hk⟩).id =
            some (if ((images.mergeSort zleBool).get ⟨k, hk⟩).id = id
              then images.length + 1 else k + 1)) ∧
        (∀ (i j : Nat) (hi : i < images.length) (hj : j < images.length),
          (images.get ⟨i, hi⟩).id ≠ id → (images.get ⟨j, hj⟩).id ≠ id →
          (zOrDefault (images.get ⟨i, hi⟩) < zOrDefault (images.get ⟨j, hj⟩) ∨
            (i < j ∧ zOrDefault (images.get ⟨i, hi⟩) =
              zOrDefault (images.get ⟨j, hj⟩))) →
          ∃ vi vj,
            zOfId (bringToFront images id) (images.get ⟨i, hi⟩).id = some vi ∧
            zOfId (bringToFront images id) (images.get ⟨j, hj⟩).id = some vj ∧
            vi < vj))) ∧
    (∀ (init : List CanvasImage) (ids : List String),
      init.length ≤ 998 → ZBounded init → ZBounded (applyBrings init ids)) := by
  constructor
  · intro images id hnd htop hmax
    have hbr := bringToFront_renormalize_branch images id htop hmax
    refine ⟨?_, images.mergeSort_perm zleBool, ?_, ?_, ?_⟩
    · rw [hbr, updateImage_ids, normalizeZIndexes_ids]
    · exact (List.sorted_mergeSort zleBool_trans zleBool_total images).imp
        fun h => by simpa [zleBool] using h
    · intro k hk
      rw [hbr]
      exact zOfId_after_renormalize images id hnd k hk
    · intro i j hi hj hti htj hrel
      rw [hbr]
      exact renormalize_respects_order images id hnd i j hi hj hti htj hrel
  · intro init ids hlen hb
    exact applyBrings_bounded ids init hlen hb

/-- The stable sort of the witness's two-tile store has two positions
(`mergeSort` is well-founded recursive, so this is routed through the
permutation's length equality rather than kernel evaluation). -/
theorem two_tile_sorted_length :
    1 < ([tileRA "a" 500, tileRA "b" 999].mergeSort zleBool).length := by
  rw [(List.mergeSort_perm [tileRA "a" 500, tileRA "b" 999] zleBool).length_eq]
  decide

/-- Witness for C3 at concrete inputs: renormalizing a two-tile store at the
ceiling assigns rank `2` (or `N + 1` for the target) to the tile at sorted
position `1`, and an eight-step bring-to-front war between five tiles
starting at the ceiling never pushes any z-index above 999. -/
theorem z_renormalization_and_bound_witness :
    zOfId (bringToFront [tileRA "a" 500, tileRA "b" 999] "a")
        (([tileRA "a" 500, tileRA "b" 999].mergeSort zleBool).get
          ⟨1, two_tile_sorted_length⟩).id =
      some (if (([tileRA "a" 500, tileRA "b" 999].mergeSort zleBool).get
          ⟨1, two_tile_sorted_length⟩).id = "a"
        then [tileRA "a" 500, tileRA "b" 999].length + 1 else 1 + 1) ∧
    ZBounded (applyBrings
      [tileRA "a" 995, tileRA "b" 996, tileRA "c" 997, tileRA "d" 998,
        tileRA "e" 999]
      ["a", "b", "c", "a", "e", "d", "a", "b"]) :=
  ⟨(z_renormalization_and_bound.1 [tileRA "a" 500, tileRA "b" 999] "a"
      (by decide) (by decide) (by decide)).2.2.2.1 1 two_tile_sorted_length,
    z_renormalization_and_bound.2
      [tileRA "a" 995, tileRA "b" 996, tileRA "c" 997, tileRA "d" 998,
        tileRA "e" 999]
      ["a", "b", "c", "a", "e", "d", "a", "b"] (by decide) (by decide)⟩

/-- **C1, counterexample.** The coordinator performs no token-identity check
before committing: once a run's network call has resolved, its controller is
removed from the map (line 81), so a superseding `generate` issued during the
run's preload phase aborts nothing — and the superseded run still commits
`{src, displayState: 'ready'}` to the store.  Concretely: run 1 (token 1)
starts and its network call resolves; a second call's `cancelActiveRequest`
now finds no controller; run 1, never aborted, commits its result. -/
theorem superseded_run_still_commits :
    (cancelActiveRequest (reqResolve (reqStart [] "t" 1).1 "t") "t").2 = none ∧
    (generateImageForTile "t" (some "cat") (.ok (some "urlA")) false true).updates =
      [("t", patchReady "urlA")] ∧
    (generateImageForTile "t" (some "cat") (.ok (some "urlA")) false true).updates ≠
      [] := by
  refine ⟨by decide, by decide, by decide⟩

/-- **C1, amended.** The last-call-wins guarantee holds exactly through the
abort signal, not through a commit-time token check: when the superseding
call is issued while the earlier call's network request is still in flight,
`cancelActiveRequest` aborts the recorded token, the aborted call resolves as
`'Request cancelled'`, and the superseded run commits nothing and surfaces
nothing. -/
theorem superseding_while_in_flight_discards (m : List (String × Nat))
    (tileId : String) (token : Nat) (prompt : Option String) (net : NetOutcome)
    (preloadOk : Bool) (h : promptBlank prompt = false) :
    (cancelActiveRequest (reqStart m tileId token).1 tileId).2 = some token ∧
    (generateImageForTile tileId prompt net true preloadOk).updates = [] ∧
    (generateImageForTile tileId prompt net true preloadOk).errors = [] := by
  refine ⟨?_, ?_, ?_⟩
  · simp [cancelActiveRequest, reqStart]
  all_goals
    cases prompt with
    | none => simp [promptBlank] at h
    | some s =>
      simp only [promptBlank, beq_eq_false_iff_ne, ne_eq] at h
      simp [generateImageForTile, promptBlank, h, aiGenerateImage,
        generateImageForTileFrom, truthy]

/-- Witness for C1's amended theorem: a concrete in-flight supersession
aborts token 7 and the superseded run contributes no update and no error. -/
theorem superseding_while_in_flight_discards_witness :
    promptBlank (some "cat") = false ∧
    ((cancelActiveRequest (reqStart [("u", 3)] "t" 7).1 "t").2 = some 7 ∧
      (generateImageForTile "t" (some "cat") (.ok (some "urlA")) true true).updates = [] ∧
      (generateImageForTile "t" (some "cat") (.ok (some "urlA")) true true).errors = []) :=
  ⟨by decide, superseding_while_in_flight_discards [("u", 3)] "t" 7 (some "cat")
    (.ok (some "urlA")) true (by decide)⟩

end AICanvas
